import Mathlib

/-!
Verification of the PhishGuard scoring engine against its specification.

The definitions below are a shallow embedding of the Python sources
(`app/features.py`, `app/ml.py`, `app/main.py`).  Python floats are
modelled as rationals (`ℚ`), Python strings as Lean `String` (lists of
unicode code points), the MongoDB collection as an association list, and
fallible code as `Except`.  Where the source calls into the CPython
standard library (`urllib.parse.urlparse`, `str.lower`, `int(...)`), the
library routine is embedded as well, restricted to the ASCII character
classes the standard library uses for ASCII input (Python's unicode digit
and case folding for non-ASCII code points is outside the model; the
`_checknetloc` NFKC check, which can only fire on non-ASCII authorities,
is likewise not modelled).
-/

deriving instance DecidableEq for Except

namespace PhishGuard

/-- `UrlFeatures`: the dictionary returned by `extract_url_features`
(`app/features.py`): `domain`/`tld` are `None` or a string, `has_ip` a
boolean, `url_length`/`num_dots` non-negative integers. -/
structure UrlFeatures where
  domain : Option String
  tld : Option String
  has_ip : Bool
  url_length : Nat
  num_dots : Nat
deriving DecidableEq

/-! ## Embedding of `urllib.parse.urlparse` (CPython `Lib/urllib/parse.py`)

`extract_url_features` calls `urlparse` and uses only `netloc` and
`path`.  The embedding follows CPython's `urlsplit`: the URL is first
left-stripped of C0-control-or-space characters, then tab/CR/LF are
removed everywhere; a leading `scheme:` (first char ASCII alpha, rest in
`scheme_chars`, up to the first `:`) is dropped; if the remainder starts
with `//` the netloc runs up to the next `/`, `?` or `#`, and a netloc
containing `[` without `]` (or vice versa) raises
`ValueError("Invalid IPv6 URL")`; the path is the remainder up to the
first `#`, then up to the first `?`; `urlparse` finally splits `;params`
off the last path segment. -/

/-- Left-strip of WHATWG C0-control-or-space (code points `0x00`–`0x20`)
followed by removal of the unsafe bytes tab, CR, LF, as CPython's
`urlsplit` does before parsing. -/
def sanitize (url : String) : List Char :=
  (url.data.dropWhile (fun c => c.toNat ≤ 32)).filter
    (fun c => !(c == '\t' || c == '\r' || c == '\n'))

/-- Characters allowed in a URL scheme after the first one:
ASCII letters, digits, `+`, `-`, `.` (CPython `scheme_chars`). -/
def isSchemeChar (c : Char) : Bool :=
  c.isAlpha || c.isDigit || c == '+' || c == '-' || c == '.'

/-- Scan from the second character of the URL: if a `:` is reached with
only scheme characters before it, return the remainder after the `:`. -/
def dropSchemeAux : List Char → Option (List Char)
  | [] => none
  | c :: rest =>
    if c == ':' then some rest
    else if isSchemeChar c then dropSchemeAux rest
    else none

/-- Drop a leading `scheme:` when the first character is an ASCII letter
and everything up to the first `:` is a scheme character, as CPython's
`urlsplit` does (the scheme itself is discarded by the caller). -/
def dropScheme : List Char → List Char
  | [] => []
  | c :: rest =>
    if c.isAlpha then
      match dropSchemeAux rest with
      | some r => r
      | none => c :: rest
    else c :: rest

/-- The URL after sanitization and scheme removal. -/
def afterScheme (url : String) : List Char :=
  dropScheme (sanitize url)

/-- Netloc delimiters: the netloc runs up to the next `/`, `?` or `#`. -/
def netlocDelimB (c : Char) : Bool :=
  c == '/' || c == '?' || c == '#'

/-- `True` when the netloc has `[` without `]` or `]` without `[`,
in which case CPython raises `ValueError("Invalid IPv6 URL")`. -/
def bracketMismatch (nl : List Char) : Bool :=
  (nl.contains '[' && !(nl.contains ']')) || (nl.contains ']' && !(nl.contains '['))

/-- CPython `_splitparams`: drop a `;params` suffix from the last path
segment (searching for `;` from the last `/` when one is present). -/
def splitParamsPath (p : List Char) : List Char :=
  if p.contains '/' then
    p.take (p.length - ((p.reverse.takeWhile (fun c => !(c == '/'))).reverse).length)
      ++ ((p.reverse.takeWhile (fun c => !(c == '/'))).reverse).takeWhile (fun c => !(c == ';'))
  else
    p.takeWhile (fun c => !(c == ';'))

/-- The `path` component of `urlparse`: the text after the netloc, cut at
the first `#` (fragment), then at the first `?` (query), then with
`;params` split off the last segment. -/
def pathOf (l : List Char) : List Char :=
  splitParamsPath ((l.takeWhile (fun c => !(c == '#'))).takeWhile (fun c => !(c == '?')))

/-- `urlparse` reduced to the two components `features.py` reads:
`(netloc, path)`.  Fails exactly where CPython raises
`ValueError("Invalid IPv6 URL")`. -/
def urlsplitModel (url : String) : Except String (List Char × List Char) :=
  if (afterScheme url).take 2 = ['/', '/'] then
    if bracketMismatch (((afterScheme url).drop 2).takeWhile (fun c => !(netlocDelimB c))) then
      Except.error "Invalid IPv6 URL"
    else
      Except.ok (((afterScheme url).drop 2).takeWhile (fun c => !(netlocDelimB c)),
                 pathOf (((afterScheme url).drop 2).dropWhile (fun c => !(netlocDelimB c))))
  else
    Except.ok ([], pathOf (afterScheme url))

/-! ## Embedding of `app/features.py` -/

/-- Python `domain.split(".")` for the single-character separator `.`:
splitting `""` gives `[""]`, adjacent dots give empty groups. -/
def splitOnDot : List Char → List (List Char)
  | [] => [[]]
  | c :: rest =>
    if c == '.' then [] :: splitOnDot rest
    else
      match splitOnDot rest with
      | g :: gs => (c :: g) :: gs
      | [] => [[c]]

/-- `domain = netloc.split(":")[0]` applied to `parsed.netloc or
parsed.path` (`features.py` line 30–32): the path is the fallback when
the netloc is empty, and an eventual `:port` suffix is stripped. -/
def domainOf (netloc path : List Char) : List Char :=
  (if netloc = [] then path else netloc).takeWhile (fun c => !(c == ':'))

/-- `tld = parts[-1] if len(parts) > 1 else None` where
`parts = domain.split(".")` (`features.py` line 33–34). -/
def tldOf (domainChars : List Char) : Option String :=
  if (splitOnDot domainChars).length > 1 then
    some (String.mk ((splitOnDot domainChars).getLastD []))
  else none

/-- One step of `IP_REGEX = ^(?:\d{1,3}\.){3}\d{1,3}$`: consume a
maximal digit run, require it to have length 1–3, then consume a `.`;
returns the remainder.  Backtracking inside `\d{1,3}` cannot help since
a shorter digit run would put a digit where the `.` is required, so the
greedy reading is exact. -/
def matchGroupDot (l : List Char) : Option (List Char) :=
  if 1 ≤ (l.takeWhile Char.isDigit).length ∧ (l.takeWhile Char.isDigit).length ≤ 3 then
    match l.dropWhile Char.isDigit with
    | '.' :: r2 => some r2
    | _ => none
  else none

/-- The final `\d{1,3}$` of `IP_REGEX`: a 1–3 digit run followed by the
end of the string — Python's `$` also matches just before one trailing
newline (irrelevant for extracted domains, which are newline-free). -/
def ipTail (l : List Char) : Bool :=
  (decide (1 ≤ (l.takeWhile Char.isDigit).length ∧ (l.takeWhile Char.isDigit).length ≤ 3))
    && (decide (l.dropWhile Char.isDigit = []) || decide (l.dropWhile Char.isDigit = ['\n']))

/-- `bool(IP_REGEX.match(domain))` (`features.py` lines 14 and 36):
three `\d{1,3}\.` groups followed by `\d{1,3}` at the end. -/
def IP_REGEX_match (s : String) : Bool :=
  match matchGroupDot s.data with
  | none => false
  | some r1 =>
    match matchGroupDot r1 with
    | none => false
    | some r2 =>
      match matchGroupDot r2 with
      | none => false
      | some r3 => ipTail r3

/-- `extract_url_features` (`features.py` lines 17–44): empty input gives
the all-default features; otherwise the URL is parsed, the domain is the
netloc (or path fallback) up to `:`, the tld the last dot-separated
label when there are at least two, `has_ip` the `IP_REGEX` match, and
length/dot-count are taken on the raw URL. -/
def extract_url_features (url : String) : Except String UrlFeatures :=
  if url = "" then
    Except.ok ⟨none, none, false, 0, 0⟩
  else
    match urlsplitModel url with
    | Except.error e => Except.error e
    | Except.ok (netloc, path) =>
      Except.ok ⟨some (String.mk (domainOf netloc path)),
                 tldOf (domainOf netloc path),
                 IP_REGEX_match (String.mk (domainOf netloc path)),
                 url.length,
                 (url.data.filter (fun c => c == '.')).length⟩

/-- The fixed vocabulary `SUSPICIOUS_WORDS` of `features.py`. -/
def SUSPICIOUS_WORDS : List String :=
  ["verify", "verification", "account", "bank", "password",
   "urgent", "immediately", "security", "login", "update",
   "confirm", "paypal", "btc", "crypto",
   "compte", "urgence", "confirmer", "sécurité"]

/-- `needle.isPrefixOf hay` written out: the needle matches at the head
of the haystack. -/
def startsWithChars : List Char → List Char → Bool
  | _, [] => true
  | [], _ :: _ => false
  | a :: as, b :: bs => a == b && startsWithChars as bs

/-- Python's substring test `needle in hay`: the needle matches at some
position of the haystack. -/
def containsSub : List Char → List Char → Bool
  | [], needle => needle.isEmpty
  | c :: t, needle => startsWithChars (c :: t) needle || containsSub t needle

/-- Python `str.lower()` restricted to ASCII case folding (the
vocabulary and the texts of interest are already lowercase or fold
within ASCII). -/
def pyLower (s : String) : String :=
  String.mk (s.data.map Char.toLower)

/-- `suspicious_words_count` (`features.py` lines 47–50): the number of
vocabulary words occurring as substrings of the lowercased text. -/
def suspicious_words_count (text : String) : Nat :=
  (SUSPICIOUS_WORDS.filter (fun w => containsSub (pyLower text).data w.data)).length

/-- The fixed set `suspicious_tlds = {"ru","cn","xyz","top","club"}`
(`features.py` line 75). -/
def suspicious_tlds : List String :=
  ["ru", "cn", "xyz", "top", "club"]

/-- `url_feats["tld"] in suspicious_tlds`: `None` is never in the set. -/
def tldFires (o : Option String) : Bool :=
  match o with
  | some t => suspicious_tlds.contains t
  | none => false

/-- The explanation contributed by the suspicious-TLD rule. -/
def tldExplanation (o : Option String) : List String :=
  match o with
  | some t =>
    if suspicious_tlds.contains t then ["TLD potentiellement suspect: ." ++ t] else []
  | none => []

/-- `if not explanations: explanations.append(...)` (`features.py`
lines 89–90): an empty explanation list is replaced by the single
fallback string. -/
def fallbackIfEmpty (l : List String) : List String :=
  if l = [] then ["Aucune caractéristique très suspecte détectée"] else l

/-- Result triple of `simple_phishing_score`. -/
structure HeurResult where
  score : ℚ
  explanations : List String
  url_feats : UrlFeatures
deriving DecidableEq

/-- `simple_phishing_score` (`features.py` lines 53–92): four
independent rules — vocabulary `min(count*0.12, 0.6)`, IP-literal
`0.25`, suspicious TLD `0.15`, URL length > 80 `0.10` — summed and
clamped to `[0,1]`, each rule appending its explanation in evaluation
order, with a fallback string when none fired.  Propagates the failure
of `extract_url_features` (Python floats are modelled as rationals). -/
def simple_phishing_score (subject body url : String) : Except String HeurResult :=
  match extract_url_features url with
  | Except.error e => Except.error e
  | Except.ok url_feats =>
    Except.ok
      ⟨max 0 (min 1
          (min ((suspicious_words_count (subject ++ " " ++ body) : ℚ) * (12/100)) (6/10)
            + (if url_feats.has_ip then 25/100 else 0)
            + (if tldFires url_feats.tld then 15/100 else 0)
            + (if url_feats.url_length > 80 then 1/10 else 0))),
       fallbackIfEmpty
          ((if suspicious_words_count (subject ++ " " ++ body) > 0 then
              [toString (suspicious_words_count (subject ++ " " ++ body)) ++
                " mot(s) sensible(s) détecté(s) dans le texte"]
            else [])
            ++ (if url_feats.has_ip then ["URL contient une adresse IP"] else [])
            ++ tldExplanation url_feats.tld
            ++ (if url_feats.url_length > 80 then ["URL très longue (> 80 caractères)"] else [])),
       url_feats⟩

/-! ## Embedding of `app/ml.py` -/

/-- `PhishingModel` (`app/ml.py`): the loaded artifact is used only
through the composite `text ↦ predict_proba(vectorizer.transform(text))`,
which the spec calls the TextClassifier; it is modelled as an abstract
function from the input text to a probability. -/
structure PhishingModel where
  classifierProb : String → ℚ

/-- Result triple of `PhishingModel.predict`. -/
structure PredictResult where
  proba : ℚ
  explanations : List String
  url_feats : UrlFeatures
deriving DecidableEq

/-- `PhishingModel.predict` (`ml.py` lines 23–37): the probability is
the classifier's output on `subject + " " + body`; the heuristics are
re-run only for explanations and URL features, their score is bound to
`_` and discarded. -/
def PhishingModel.predict (m : PhishingModel) (subject body url : String) :
    Except String PredictResult :=
  match simple_phishing_score subject body url with
  | Except.error e => Except.error e
  | Except.ok h =>
    Except.ok ⟨m.classifierProb (subject ++ " " ++ body), h.explanations, h.url_feats⟩

/-! ## Embedding of `app/main.py` -/

/-- The document stored in the `logs` collection by `/api/detect` and
`/api/import_csv` (`main.py` lines 101–116 and 283–298).  The creation
timestamp is abstracted to a `Nat`. -/
structure LogRecord where
  timestamp : Nat
  subject : String
  body : String
  url : String
  probability : ℚ
  verdict : String
  label : Option String
  features : List String
  domain : Option String
  tld : Option String
  has_ip : Bool
  url_length : Nat
  num_dots : Nat
  source_ip : Option String
deriving DecidableEq

/-- The MongoDB `logs` collection: an association list from the string
form of the `_id` to the stored document. -/
abbrev Db := List (String × LogRecord)

/-- An HTTP error raised via `HTTPException(status_code, detail)`. -/
structure HttpError where
  status : Nat
  detail : String
deriving DecidableEq

/-- The database operations a request handler can perform, recorded as a
trace to show that validation failures happen before any access. -/
inductive DbOp where
  | update (id : String) (label : String)
  | delete (id : String)
deriving DecidableEq

/-- Outcome of a request handler: HTTP response or error, the collection
afterwards, and the trace of database operations performed. -/
structure ApiOutcome (α : Type) where
  response : Except HttpError α
  db : Db
  trace : List DbOp

/-- The labels accepted by `/api/report` (`main.py` line 205). -/
def validLabels : List String := ["fp", "fn", "tp", "tn"]

/-- `c` is an ASCII hexadecimal digit. -/
def isHexChar (c : Char) : Bool :=
  c.isDigit || ('a' ≤ c && c ≤ 'f') || ('A' ≤ c && c ≤ 'F')

/-- `bson.ObjectId(id_str)` succeeds on a string exactly when it is a
24-character hexadecimal string; `oid` (`main.py` lines 47–52) converts
the failure into a 400 error. -/
def isValidObjectId (s : String) : Bool :=
  s.length = 24 && s.data.all isHexChar

/-- First-match lookup of a record by id. -/
def findId : Db → String → Option LogRecord
  | [], _ => none
  | (i, r) :: rest, id => if i = id then some r else findId rest id

/-- Whether some record has the given id (`matched_count > 0`). -/
def existsId (db : Db) (id : String) : Bool :=
  (findId db id).isSome

/-- `update_one({"_id": oid}, {"$set": {"label": label}})`: rewrite the
label of the first record with the given id, leave everything else. -/
def updateFirst : Db → String → String → Db
  | [], _, _ => []
  | (i, r) :: rest, id, lab =>
    if i = id then (i, { r with label := some lab }) :: rest
    else (i, r) :: updateFirst rest id lab

/-- `delete_one({"_id": oid})`: remove the first record with the id. -/
def removeFirst : Db → String → Db
  | [], _ => []
  | (i, r) :: rest, id => if i = id then rest else (i, r) :: removeFirst rest id

/-- `modified_count` of the `$set` update: 1 when the matched document
actually changes, 0 when its label already equals the new one. -/
def modifiedCount (db : Db) (id lab : String) : Nat :=
  match findId db id with
  | some r => if r.label = some lab then 0 else 1
  | none => 0

/-- `/api/report` (`main.py` lines 196–216): reject a label outside
{fp,fn,tp,tn} with 400; reject a malformed id with 400 (`oid`); then run
the update and answer 404 when nothing matched, else ok with the
modified count. -/
def report (db : Db) (log_id lab : String) : ApiOutcome Nat :=
  if !(validLabels.contains lab) then
    ⟨Except.error ⟨400, "label invalide (fp, fn, tp, tn)"⟩, db, []⟩
  else if !(isValidObjectId log_id) then
    ⟨Except.error ⟨400, "log_id invalide"⟩, db, []⟩
  else if existsId db log_id then
    ⟨Except.ok (modifiedCount db log_id lab), updateFirst db log_id lab,
     [DbOp.update log_id lab]⟩
  else
    ⟨Except.error ⟨404, "log introuvable"⟩, updateFirst db log_id lab,
     [DbOp.update log_id lab]⟩

/-- `/api/logs/{log_id}` DELETE (`main.py` lines 223–231): reject a
malformed id with 400 (`oid`); then delete and answer 404 when nothing
was deleted. -/
def delete_log (db : Db) (log_id : String) : ApiOutcome Unit :=
  if !(isValidObjectId log_id) then
    ⟨Except.error ⟨400, "log_id invalide"⟩, db, []⟩
  else if existsId db log_id then
    ⟨Except.ok (), removeFirst db log_id, [DbOp.delete log_id]⟩
  else
    ⟨Except.error ⟨404, "log introuvable"⟩, db, [DbOp.delete log_id]⟩

/-- The document built and stored by `/api/detect` (`main.py` lines
92–119): probability and verdict from the model, `label` set to `None`,
explanations and URL features from the heuristics. -/
def buildDetectDoc (m : PhishingModel) (now : Nat) (subject body url : String) :
    Except String LogRecord :=
  match m.predict subject body url with
  | Except.error e => Except.error e
  | Except.ok r =>
    Except.ok ⟨now, subject, body, url, r.proba,
               if r.proba ≥ (1:ℚ)/2 then "phishing" else "legit",
               none, r.explanations, r.url_feats.domain, r.url_feats.tld,
               r.url_feats.has_ip, r.url_feats.url_length, r.url_feats.num_dots,
               none⟩

/-- Python whitespace for `str.strip()` / `int()` (ASCII subset). -/
def isPySpace (c : Char) : Bool :=
  c == ' ' || c == '\t' || c == '\n' || c == '\r' || c == '\x0b' || c == '\x0c'

/-- Python `str.strip()` (ASCII whitespace). -/
def pyStrip (s : String) : String :=
  String.mk (((s.data.dropWhile isPySpace).reverse.dropWhile isPySpace).reverse)

/-- Digits of a Python integer literal after the first digit: further
digits, with single underscores allowed between digits. -/
def digitsAfter (acc : Nat) : List Char → Option Nat
  | [] => some acc
  | '_' :: c :: rest =>
    if c.isDigit then digitsAfter (acc * 10 + (c.toNat - 48)) rest else none
  | c :: rest =>
    if c.isDigit then digitsAfter (acc * 10 + (c.toNat - 48)) rest else none

/-- A nonempty run of digits (with `_` separators) as a number. -/
def digitsStart : List Char → Option Nat
  | c :: rest => if c.isDigit then digitsAfter (c.toNat - 48) rest else none
  | [] => none

/-- Python `int(s)` on a string: optional surrounding whitespace,
optional sign, then ASCII decimal digits; `None` models `ValueError`. -/
def pyParseInt (s : String) : Option Int :=
  match (pyStrip s).data with
  | '+' :: rest => (digitsStart rest).map (fun n => (n : Int))
  | '-' :: rest => (digitsStart rest).map (fun n => -(n : Int))
  | rest => (digitsStart rest).map (fun n => (n : Int))

/-- The label stored by an `/api/import_csv` row (`main.py` lines
272–281): empty raw label gives no label; a raw label parsing as an
integer gives `tp` exactly when it is `1` and the verdict is phishing,
else no label; a raw label raising `ValueError` in `int()` is stored
verbatim. -/
def importRowLabel (labelRaw verdict : String) : Option String :=
  if labelRaw = "" then none
  else
    match pyParseInt labelRaw with
    | some v => if v = 1 ∧ verdict = "phishing" then some "tp" else none
    | none => some labelRaw

/-- One row of the uploaded CSV, as read by `csv.DictReader`: the label
cell may be absent (`None`). -/
structure CsvRow where
  subject : String
  body : String
  url : String
  label : Option String

/-- The document built for one CSV row by `/api/import_csv` (`main.py`
lines 260–299): same scoring and threshold as `/api/detect`, plus the
raw-label handling. -/
def buildImportDoc (m : PhishingModel) (now : Nat) (row : CsvRow) :
    Except String LogRecord :=
  match m.predict row.subject row.body row.url with
  | Except.error e => Except.error e
  | Except.ok r =>
    Except.ok ⟨now, row.subject, row.body, row.url, r.proba,
               if r.proba ≥ (1:ℚ)/2 then "phishing" else "legit",
               importRowLabel
                 (match row.label with | some s => pyStrip s | none => "")
                 (if r.proba ≥ (1:ℚ)/2 then "phishing" else "legit"),
               r.explanations, r.url_feats.domain, r.url_feats.tld,
               r.url_feats.has_ip, r.url_feats.url_length, r.url_feats.num_dots,
               none⟩

/-- Every stored label is absent or one of the accepted four. -/
def labelInvB (db : Db) : Bool :=
  db.all (fun p =>
    match p.2.label with
    | none => true
    | some l => validLabels.contains l)

/-- A classifier stub assigning probability 0 to every text, for
concrete evaluations. -/
def constModel : PhishingModel := ⟨fun _ => 0⟩

/-- A classifier stub assigning probability 1/2 to every text, for the
threshold boundary. -/
def halfModel : PhishingModel := ⟨fun _ => (1:ℚ)/2⟩

/-- `extract_url_features` collapsed to its `has_ip` field (false on the
parser's error), for stating concrete examples. -/
def extractHasIp (url : String) : Bool :=
  match extract_url_features url with
  | Except.ok f => f.has_ip
  | Except.error _ => false

/-- `buildImportDoc` collapsed to the stored label (`none` on error),
for stating concrete examples. -/
def importDocLabel (m : PhishingModel) (now : Nat) (row : CsvRow) :
    Option (Option String) :=
  match buildImportDoc m now row with
  | Except.ok doc => some doc.label
  | Except.error _ => none

/-- A dotted-quad group in the sense of the specification: one to three
digits. -/
def goodGrp (g : List Char) : Prop :=
  g ≠ [] ∧ g.length ≤ 3 ∧ g.all Char.isDigit = true

/-! ## General lemmas -/

theorem fallbackIfEmpty_ne_nil (l : List String) : fallbackIfEmpty l ≠ [] := by
  unfold fallbackIfEmpty
  split
  · simp
  · assumption

theorem score_clamped_bounds (x : ℚ) : 0 ≤ max 0 (min 1 x) ∧ max 0 (min 1 x) ≤ 1 :=
  ⟨le_max_left 0 _, max_le (by norm_num) (min_le_left 1 x)⟩

theorem predict_ok_proba (m : PhishingModel) (s b u : String) (r : PredictResult)
    (h : PhishingModel.predict m s b u = Except.ok r) :
    r.proba = m.classifierProb (s ++ " " ++ b) := by
  unfold PhishingModel.predict at h
  cases hs : simple_phishing_score s b u with
  | error e => rw [hs] at h; exact Except.noConfusion h
  | ok hr =>
    rw [hs] at h
    injection h with h'
    rw [← h']

theorem verdict_iff (p : ℚ) :
    ((if p ≥ (1:ℚ)/2 then "phishing" else "legit") = "phishing") ↔ (1:ℚ)/2 ≤ p := by
  split
  · next hc => exact ⟨fun _ => hc, fun _ => rfl⟩
  · next hc =>
    constructor
    · intro hlp; exact absurd hlp (by decide)
    · intro hle; exact absurd hle hc

/-! ## Claim theorems: heuristics -/

/-- C4: for every subject, body and url on which the heuristics run, the
score returned by `simple_phishing_score` equals the sum of the four
rule contributions — `min(count*0.12, 0.6)` for vocabulary, `0.25` for
an IP-literal domain, `0.15` for a suspicious TLD, `0.10` for a URL
longer than 80 characters — clamped to `[0,1]`, hence always lies in
`[0,1]`. -/
theorem C4_score_is_clamped_rule_sum (s b u : String) (r : HeurResult)
    (h : simple_phishing_score s b u = Except.ok r) :
    (∃ f, extract_url_features u = Except.ok f ∧
      r.score = max 0 (min 1
        (min ((suspicious_words_count (s ++ " " ++ b) : ℚ) * (12/100)) (6/10)
          + (if f.has_ip then 25/100 else 0)
          + (if tldFires f.tld then 15/100 else 0)
          + (if f.url_length > 80 then 1/10 else 0)))) ∧
    0 ≤ r.score ∧ r.score ≤ 1 := by
  unfold simple_phishing_score at h
  cases he : extract_url_features u with
  | error e => rw [he] at h; exact Except.noConfusion h
  | ok f =>
    rw [he] at h
    injection h with h'
    refine ⟨⟨f, rfl, ?_⟩, ?_, ?_⟩
    · rw [← h']
    · rw [← h']; exact (score_clamped_bounds _).1
    · rw [← h']; exact (score_clamped_bounds _).2

theorem C4_witness :
    (simple_phishing_score "" "" "" =
      Except.ok ⟨0, ["Aucune caractéristique très suspecte détectée"],
        ⟨none, none, false, 0, 0⟩⟩) ∧
    ((∃ f, extract_url_features "" = Except.ok f ∧
      (0:ℚ) = max 0 (min 1
        (min ((suspicious_words_count ("" ++ " " ++ "") : ℚ) * (12/100)) (6/10)
          + (if f.has_ip then 25/100 else 0)
          + (if tldFires f.tld then 15/100 else 0)
          + (if f.url_length > 80 then 1/10 else 0)))) ∧
      0 ≤ (0:ℚ) ∧ (0:ℚ) ≤ 1) :=
  ⟨by with_unfolding_all rfl,
   C4_score_is_clamped_rule_sum "" "" ""
     ⟨0, ["Aucune caractéristique très suspecte détectée"], ⟨none, none, false, 0, 0⟩⟩
     (by with_unfolding_all rfl)⟩

/-- C8: the explanation list returned by the heuristics is never empty:
it is the concatenation, in rule-evaluation order, of the explanations
of the rules that fired, replaced by the single fallback string when no
rule fired. -/
theorem C8_explanations_ordered_nonempty (s b u : String) (r : HeurResult)
    (h : simple_phishing_score s b u = Except.ok r) :
    r.explanations ≠ [] ∧
    ∃ f, extract_url_features u = Except.ok f ∧
      r.explanations = fallbackIfEmpty
        ((if suspicious_words_count (s ++ " " ++ b) > 0 then
            [toString (suspicious_words_count (s ++ " " ++ b)) ++
              " mot(s) sensible(s) détecté(s) dans le texte"]
          else [])
          ++ (if f.has_ip then ["URL contient une adresse IP"] else [])
          ++ tldExplanation f.tld
          ++ (if f.url_length > 80 then ["URL très longue (> 80 caractères)"] else [])) ∧
      (∀ l : List String, l = [] →
        fallbackIfEmpty l = ["Aucune caractéristique très suspecte détectée"]) := by
  unfold simple_phishing_score at h
  cases he : extract_url_features u with
  | error e => rw [he] at h; exact Except.noConfusion h
  | ok f =>
    rw [he] at h
    injection h with h'
    refine ⟨?_, f, rfl, ?_, ?_⟩
    · rw [← h']; exact fallbackIfEmpty_ne_nil _
    · rw [← h']
    · intro l hl; rw [hl]; rfl

theorem C8_witness :
    (simple_phishing_score "" "" "" =
      Except.ok ⟨0, ["Aucune caractéristique très suspecte détectée"],
        ⟨none, none, false, 0, 0⟩⟩) ∧
    (["Aucune caractéristique très suspecte détectée"] ≠ ([] : List String)) :=
  ⟨by with_unfolding_all rfl,
   (C8_explanations_ordered_nonempty "" "" ""
     ⟨0, ["Aucune caractéristique très suspecte détectée"], ⟨none, none, false, 0, 0⟩⟩
     (by with_unfolding_all rfl)).1⟩

/-! ## Claim theorems: prediction combination -/

/-- C1: the probability returned by `PhishingModel.predict` is exactly
the classifier's output on `subject ++ " " ++ body`; the heuristic score
is discarded, and only the explanations and URL features of the result
come from the heuristics. -/
theorem C1_probability_only_from_classifier (m : PhishingModel) (s b u : String)
    (r : PredictResult) (h : PhishingModel.predict m s b u = Except.ok r) :
    r.proba = m.classifierProb (s ++ " " ++ b) ∧
    ∃ hr, simple_phishing_score s b u = Except.ok hr ∧
      r.explanations = hr.explanations ∧ r.url_feats = hr.url_feats := by
  refine ⟨predict_ok_proba m s b u r h, ?_⟩
  unfold PhishingModel.predict at h
  cases hs : simple_phishing_score s b u with
  | error e => rw [hs] at h; exact Except.noConfusion h
  | ok hr =>
    rw [hs] at h
    injection h with h'
    exact ⟨hr, rfl, by rw [← h'], by rw [← h']⟩

theorem C1_witness :
    (PhishingModel.predict constModel "a" "b" "c" =
      Except.ok ⟨0, ["Aucune caractéristique très suspecte détectée"],
        ⟨some "c", none, false, 1, 0⟩⟩) ∧
    ((0:ℚ) = constModel.classifierProb ("a" ++ " " ++ "b") ∧
      ∃ hr, simple_phishing_score "a" "b" "c" = Except.ok hr ∧
        ["Aucune caractéristique très suspecte détectée"] = hr.explanations ∧
        (⟨some "c", none, false, 1, 0⟩ : UrlFeatures) = hr.url_feats) :=
  ⟨by with_unfolding_all rfl,
   C1_probability_only_from_classifier constModel "a" "b" "c"
     ⟨0, ["Aucune caractéristique très suspecte détectée"], ⟨some "c", none, false, 1, 0⟩⟩
     (by with_unfolding_all rfl)⟩

/-- C9: the probability returned by `PhishingModel.predict` does not
depend on the url argument: two successful calls with the same subject
and body but different urls yield equal probabilities. -/
theorem C9_probability_independent_of_url (m : PhishingModel) (s b u₁ u₂ : String)
    (r₁ r₂ : PredictResult)
    (h₁ : PhishingModel.predict m s b u₁ = Except.ok r₁)
    (h₂ : PhishingModel.predict m s b u₂ = Except.ok r₂) :
    r₁.proba = r₂.proba := by
  rw [predict_ok_proba m s b u₁ r₁ h₁, predict_ok_proba m s b u₂ r₂ h₂]

theorem C9_witness :
    (PhishingModel.predict constModel "a" "b" "x" =
      Except.ok ⟨0, ["Aucune caractéristique très suspecte détectée"],
        ⟨some "x", none, false, 1, 0⟩⟩) ∧
    (PhishingModel.predict constModel "a" "b" "192.168.1.5" =
      Except.ok ⟨0, ["URL contient une adresse IP"],
        ⟨some "192.168.1.5", some "5", true, 11, 3⟩⟩) ∧
    (0:ℚ) = (0:ℚ) :=
  ⟨by with_unfolding_all rfl, by with_unfolding_all rfl,
   C9_probability_independent_of_url constModel "a" "b" "x" "192.168.1.5"
     ⟨0, ["Aucune caractéristique très suspecte détectée"], ⟨some "x", none, false, 1, 0⟩⟩
     ⟨0, ["URL contient une adresse IP"], ⟨some "192.168.1.5", some "5", true, 11, 3⟩⟩
     (by with_unfolding_all rfl) (by with_unfolding_all rfl)⟩

/-! ## Claim theorems: verdict threshold -/

/-- C3: on both the detection path and the bulk-import path the verdict
is `"phishing"` exactly when the probability is at least `0.5`, and a
probability of exactly `0.5` yields `"phishing"`. -/
theorem C3_verdict_threshold :
    (∀ m now s b u doc, buildDetectDoc m now s b u = Except.ok doc →
        ((doc.verdict = "phishing") ↔ (1:ℚ)/2 ≤ doc.probability)) ∧
    (∀ m now row doc, buildImportDoc m now row = Except.ok doc →
        ((doc.verdict = "phishing") ↔ (1:ℚ)/2 ≤ doc.probability)) ∧
    (∀ m now s b u doc, buildDetectDoc m now s b u = Except.ok doc →
        doc.probability = (1:ℚ)/2 → doc.verdict = "phishing") := by
  have hdetect : ∀ m now s b u doc, buildDetectDoc m now s b u = Except.ok doc →
      ((doc.verdict = "phishing") ↔ (1:ℚ)/2 ≤ doc.probability) := by
    intro m now s b u doc h
    unfold buildDetectDoc at h
    cases hp : m.predict s b u with
    | error e => rw [hp] at h; exact Except.noConfusion h
    | ok r =>
      rw [hp] at h
      injection h with h'
      rw [← h']
      exact verdict_iff r.proba
  refine ⟨hdetect, ?_, ?_⟩
  · intro m now row doc h
    unfold buildImportDoc at h
    cases hp : m.predict row.subject row.body row.url with
    | error e => rw [hp] at h; exact Except.noConfusion h
    | ok r =>
      rw [hp] at h
      injection h with h'
      rw [← h']
      exact verdict_iff r.proba
  · intro m now s b u doc h hhalf
    exact (hdetect m now s b u doc h).mpr (le_of_eq hhalf.symm)

theorem C3_witness :
    (buildDetectDoc halfModel 0 "" "" "" =
      Except.ok ⟨0, "", "", "", (1:ℚ)/2, "phishing", none,
        ["Aucune caractéristique très suspecte détectée"], none, none, false, 0, 0, none⟩) ∧
    ((("phishing" : String) = "phishing") ↔ (1:ℚ)/2 ≤ (1:ℚ)/2) :=
  ⟨by with_unfolding_all rfl,
   C3_verdict_threshold.1 halfModel 0 "" "" ""
     ⟨0, "", "", "", (1:ℚ)/2, "phishing", none,
       ["Aucune caractéristique très suspecte détectée"], none, none, false, 0, 0, none⟩
     (by with_unfolding_all rfl)⟩

/-! ## Lemmas on the collection operations -/

theorem updateFirst_absent (db : Db) (id lab : String) (h : findId db id = none) :
    updateFirst db id lab = db := by
  induction db with
  | nil => rfl
  | cons p rest ih =>
    obtain ⟨i, r⟩ := p
    unfold findId at h
    unfold updateFirst
    by_cases hi : i = id
    · rw [if_pos hi] at h; exact Option.noConfusion h
    · rw [if_neg hi] at h
      rw [if_neg hi, ih h]

theorem findId_updateFirst_self (db : Db) (id lab : String) (r : LogRecord)
    (h : findId db id = some r) :
    findId (updateFirst db id lab) id = some { r with label := some lab } := by
  induction db with
  | nil => exact Option.noConfusion h
  | cons p rest ih =>
    obtain ⟨i, r'⟩ := p
    unfold findId at h
    unfold updateFirst
    by_cases hi : i = id
    · rw [if_pos hi] at h
      injection h with h'
      simp only [findId, if_pos hi, h']
    · rw [if_neg hi] at h
      simp only [findId, if_neg hi]
      exact ih h

theorem findId_updateFirst_other (db : Db) (id lab k : String) (hk : k ≠ id) :
    findId (updateFirst db id lab) k = findId db k := by
  induction db with
  | nil => rfl
  | cons p rest ih =>
    obtain ⟨i, r⟩ := p
    unfold updateFirst
    by_cases hi : i = id
    · rw [if_pos hi]
      unfold findId
      have : ¬ i = k := fun hik => hk (hik ▸ hi)
      rw [if_neg this, if_neg this]
    · rw [if_neg hi]
      unfold findId
      by_cases hik : i = k
      · rw [if_pos hik, if_pos hik]
      · rw [if_neg hik, if_neg hik]
        exact ih

theorem length_updateFirst (db : Db) (id lab : String) :
    (updateFirst db id lab).length = db.length := by
  induction db with
  | nil => rfl
  | cons p rest ih =>
    obtain ⟨i, r⟩ := p
    unfold updateFirst
    by_cases hi : i = id
    · rw [if_pos hi]; rfl
    · rw [if_neg hi]
      simpa using ih

theorem labelInvB_updateFirst (db : Db) (id lab : String)
    (hdb : labelInvB db = true) (hlab : validLabels.contains lab = true) :
    labelInvB (updateFirst db id lab) = true := by
  induction db with
  | nil => rfl
  | cons p rest ih =>
    obtain ⟨i, r⟩ := p
    unfold labelInvB at hdb
    rw [List.all_cons, Bool.and_eq_true] at hdb
    unfold updateFirst
    by_cases hi : i = id
    · rw [if_pos hi]
      unfold labelInvB
      rw [List.all_cons, Bool.and_eq_true]
      exact ⟨hlab, hdb.2⟩
    · rw [if_neg hi]
      unfold labelInvB
      rw [List.all_cons, Bool.and_eq_true]
      exact ⟨hdb.1, ih hdb.2⟩

/-! ## Claim theorems: record lifecycle -/

/-- C7: feedback with a valid label on an existing (well-formed) record
id succeeds and rewrites only that record's label, leaving its other
fields and all other records unchanged; feedback on a nonexistent
(well-formed) id answers 404 and leaves the collection unchanged. -/
theorem C7_feedback_frame (db : Db) (id lab : String)
    (hlab : validLabels.contains lab = true) (hid : isValidObjectId id = true) :
    (∀ r, findId db id = some r →
      (report db id lab).response = Except.ok (modifiedCount db id lab) ∧
      (report db id lab).db = updateFirst db id lab ∧
      findId (report db id lab).db id = some { r with label := some lab } ∧
      (∀ k, k ≠ id → findId (report db id lab).db k = findId db k) ∧
      (report db id lab).db.length = db.length) ∧
    (findId db id = none →
      (report db id lab).response = Except.error ⟨404, "log introuvable"⟩ ∧
      (report db id lab).db = db) := by
  constructor
  · intro r hr
    have hex : existsId db id = true := by unfold existsId; rw [hr]; rfl
    have hrep : report db id lab =
        ⟨Except.ok (modifiedCount db id lab), updateFirst db id lab,
         [DbOp.update id lab]⟩ := by
      unfold report
      rw [hlab, hid, hex]
      rfl
    rw [hrep]
    exact ⟨rfl, rfl, findId_updateFirst_self db id lab r hr,
           fun k hk => findId_updateFirst_other db id lab k hk,
           length_updateFirst db id lab⟩
  · intro hr
    have hex : existsId db id = false := by unfold existsId; rw [hr]; rfl
    have hrep : report db id lab =
        ⟨Except.error ⟨404, "log introuvable"⟩, updateFirst db id lab,
         [DbOp.update id lab]⟩ := by
      unfold report
      rw [hlab, hid, hex]
      rfl
    rw [hrep]
    exact ⟨rfl, updateFirst_absent db id lab hr⟩

theorem C7_witness :
    (validLabels.contains "fp" = true) ∧
    (isValidObjectId "0123456789abcdef01234567" = true) ∧
    (findId [("0123456789abcdef01234567",
        ⟨0, "s", "b", "u", 0, "legit", none, ["e"], none, none, false, 1, 0, none⟩)]
      "0123456789abcdef01234567" =
      some ⟨0, "s", "b", "u", 0, "legit", none, ["e"], none, none, false, 1, 0, none⟩) ∧
    findId (report [("0123456789abcdef01234567",
        ⟨0, "s", "b", "u", 0, "legit", none, ["e"], none, none, false, 1, 0, none⟩)]
        "0123456789abcdef01234567" "fp").db "0123456789abcdef01234567" =
      some ⟨0, "s", "b", "u", 0, "legit", some "fp", ["e"], none, none, false, 1, 0, none⟩ :=
  ⟨by decide, by decide, by with_unfolding_all rfl,
   (((C7_feedback_frame
      [("0123456789abcdef01234567",
        ⟨0, "s", "b", "u", 0, "legit", none, ["e"], none, none, false, 1, 0, none⟩)]
      "0123456789abcdef01234567" "fp" (by decide) (by decide)).1
      ⟨0, "s", "b", "u", 0, "legit", none, ["e"], none, none, false, 1, 0, none⟩
      (by with_unfolding_all rfl)).2.2).1⟩

/-- C10: a feedback or delete call with a record-id string that is not a
well-formed ObjectId fails with the invalid-id 400 error before any
database operation (empty trace, collection untouched), a distinct
outcome from the 404 returned for a well-formed but unknown id. -/
theorem C10_malformed_id_rejected_before_lookup (db : Db) (id lab : String)
    (hbad : isValidObjectId id = false) (hlab : validLabels.contains lab = true) :
    ((report db id lab).response = Except.error ⟨400, "log_id invalide"⟩ ∧
     (report db id lab).db = db ∧ (report db id lab).trace = []) ∧
    ((delete_log db id).response = Except.error ⟨400, "log_id invalide"⟩ ∧
     (delete_log db id).db = db ∧ (delete_log db id).trace = []) ∧
    (∀ id2, isValidObjectId id2 = true → findId db id2 = none →
      (report db id2 lab).response = Except.error ⟨404, "log introuvable"⟩ ∧
      (delete_log db id2).response = Except.error ⟨404, "log introuvable"⟩) ∧
    ((⟨400, "log_id invalide"⟩ : HttpError) ≠ ⟨404, "log introuvable"⟩) := by
  have hrep : report db id lab =
      ⟨Except.error ⟨400, "log_id invalide"⟩, db, []⟩ := by
    unfold report
    rw [hlab, hbad]
    rfl
  have hdel : delete_log db id = ⟨Except.error ⟨400, "log_id invalide"⟩, db, []⟩ := by
    unfold delete_log
    rw [hbad]
    rfl
  refine ⟨by rw [hrep]; exact ⟨rfl, rfl, rfl⟩, by rw [hdel]; exact ⟨rfl, rfl, rfl⟩,
          ?_, by decide⟩
  intro id2 h2 hn
  have hex : existsId db id2 = false := by unfold existsId; rw [hn]; rfl
  constructor
  · unfold report
    rw [hlab, h2, hex]
    rfl
  · unfold delete_log
    rw [h2, hex]
    rfl

theorem C10_witness :
    (isValidObjectId "not-an-objectid" = false) ∧
    (validLabels.contains "fp" = true) ∧
    (report ([] : Db) "not-an-objectid" "fp").response =
      Except.error ⟨400, "log_id invalide"⟩ ∧
    (report ([] : Db) "not-an-objectid" "fp").trace = [] ∧
    (report ([] : Db) "0123456789abcdef01234567" "fp").response =
      Except.error ⟨404, "log introuvable"⟩ :=
  ⟨by decide, by decide,
   (C10_malformed_id_rejected_before_lookup [] "not-an-objectid" "fp"
     (by decide) (by decide)).1.1,
   (C10_malformed_id_rejected_before_lookup [] "not-an-objectid" "fp"
     (by decide) (by decide)).1.2.2,
   ((C10_malformed_id_rejected_before_lookup [] "not-an-objectid" "fp"
     (by decide) (by decide)).2.2.1 "0123456789abcdef01234567" (by decide)
     (by decide)).1⟩

/-- C2 as stated is false: the bulk-import path stores a non-numeric raw
label verbatim, here the label `"banana"`, which is outside
{fp,fn,tp,tn}. -/
theorem C2_counterexample :
    importDocLabel constModel 0 ⟨"hello", "world", "", some "banana"⟩ =
      some (some "banana") ∧
    validLabels.contains "banana" = false :=
  ⟨by with_unfolding_all rfl, by decide⟩

/-- C2 amended: the label starts absent at creation, and the feedback
path preserves the invariant that every stored label is absent or in
{fp,fn,tp,tn}; on the bulk-import path a raw label that parses as an
integer yields either no label or `tp`, but (per the counterexample) a
non-empty raw label that does not parse as an integer is stored
verbatim, possibly outside the set. -/
theorem C2_label_invariant_amended :
    (∀ m now s b u doc, buildDetectDoc m now s b u = Except.ok doc →
      doc.label = none) ∧
    (∀ db id lab, labelInvB db = true → labelInvB (report db id lab).db = true) ∧
    (∀ raw verdict v, pyParseInt raw = some v →
      importRowLabel raw verdict = none ∨ importRowLabel raw verdict = some "tp") := by
  refine ⟨?_, ?_, ?_⟩
  · intro m now s b u doc h
    unfold buildDetectDoc at h
    cases hp : m.predict s b u with
    | error e => rw [hp] at h; exact Except.noConfusion h
    | ok r =>
      rw [hp] at h
      injection h with h'
      rw [← h']
  · intro db id lab hdb
    unfold report
    by_cases h1 : validLabels.contains lab = true
    · rw [h1]
      by_cases h2 : isValidObjectId id = true
      · rw [h2]
        by_cases h3 : existsId db id = true
        · rw [h3]
          exact labelInvB_updateFirst db id lab hdb h1
        · rw [Bool.of_not_eq_true h3]
          exact labelInvB_updateFirst db id lab hdb h1
      · rw [Bool.of_not_eq_true h2]
        exact hdb
    · rw [Bool.of_not_eq_true h1]
      exact hdb
  · intro raw verdict v h
    unfold importRowLabel
    by_cases h0 : raw = ""
    · rw [if_pos h0]
      exact Or.inl rfl
    · rw [if_neg h0, h]
      by_cases h1 : v = 1 ∧ verdict = "phishing"
      · dsimp only
        rw [if_pos h1]
        exact Or.inr rfl
      · dsimp only
        rw [if_neg h1]
        exact Or.inl rfl

theorem C2_witness :
    (labelInvB ([] : Db) = true) ∧
    (labelInvB (report ([] : Db) "0123456789abcdef01234567" "fp").db = true) ∧
    (pyParseInt "1" = some 1) ∧
    (importRowLabel "1" "phishing" = none ∨ importRowLabel "1" "phishing" = some "tp") :=
  ⟨by decide,
   C2_label_invariant_amended.2.1 [] "0123456789abcdef01234567" "fp" (by decide),
   by decide,
   C2_label_invariant_amended.2.2 "1" "phishing" 1 (by decide)⟩

/-! ## Lemmas on the IP regex -/

theorem matchGroupDot_spec (l r : List Char) :
    matchGroupDot l = some r ↔ ∃ d, goodGrp d ∧ l = d ++ '.' :: r := by
  constructor
  · intro h
    unfold matchGroupDot at h
    split at h
    · next hcond =>
      split at h
      · next r2 heq =>
        injection h with h'
        refine ⟨l.takeWhile Char.isDigit,
          ⟨?_, hcond.2, List.all_takeWhile⟩, ?_⟩
        · intro hnil
          rw [hnil] at hcond
          exact absurd hcond.1 (by decide)
        · conv_lhs => rw [← List.takeWhile_append_dropWhile (p := Char.isDigit) (l := l)]
          rw [heq, h']
      · next heq hne => exact Option.noConfusion h
    · exact Option.noConfusion h
  · rintro ⟨d, ⟨hne, hlen, hall⟩, rfl⟩
    have hmem : ∀ a ∈ d, Char.isDigit a := fun a ha => List.all_eq_true.mp hall a ha
    have ht : (d ++ '.' :: r).takeWhile Char.isDigit = d := by
      rw [List.takeWhile_append_of_pos hmem,
          List.takeWhile_cons_of_neg (by decide), List.append_nil]
    have hd : (d ++ '.' :: r).dropWhile Char.isDigit = '.' :: r := by
      rw [List.dropWhile_append_of_pos hmem,
          List.dropWhile_cons_of_neg (by decide)]
    unfold matchGroupDot
    rw [ht, hd, if_pos ⟨List.length_pos.mpr hne, hlen⟩]
    rfl

theorem ipTail_spec (l : List Char) (hnl : '\n' ∉ l) :
    ipTail l = true ↔ goodGrp l := by
  constructor
  · intro h
    unfold ipTail at h
    rw [Bool.and_eq_true, Bool.or_eq_true, decide_eq_true_iff,
        decide_eq_true_iff, decide_eq_true_iff] at h
    obtain ⟨⟨hpos, hlen⟩, hrest⟩ := h
    have hdrop : l.dropWhile Char.isDigit = [] := by
      cases hrest with
      | inl h0 => exact h0
      | inr h1 =>
        exfalso
        apply hnl
        exact (List.dropWhile_sublist Char.isDigit).mem (h1 ▸ List.mem_singleton.mpr rfl)
    have hself : l.takeWhile Char.isDigit = l := by
      conv_rhs => rw [← List.takeWhile_append_dropWhile (p := Char.isDigit) (l := l)]
      rw [hdrop, List.append_nil]
    refine ⟨?_, by rw [← hself]; exact hlen, by rw [← hself]; exact List.all_takeWhile⟩
    intro hnil
    rw [hnil] at hpos
    exact absurd hpos (by decide)
  · rintro ⟨hne, hlen, hall⟩
    have hmem : ∀ a ∈ l, Char.isDigit a := fun a ha => List.all_eq_true.mp hall a ha
    have ht : l.takeWhile Char.isDigit = l := List.takeWhile_eq_self_iff.mpr hmem
    have hd : l.dropWhile Char.isDigit = [] := List.dropWhile_eq_nil_iff.mpr hmem
    unfold ipTail
    rw [ht, hd]
    rw [Bool.and_eq_true, Bool.or_eq_true, decide_eq_true_iff,
        decide_eq_true_iff, decide_eq_true_iff]
    exact ⟨⟨List.length_pos.mpr hne, hlen⟩, Or.inl rfl⟩

theorem IP_REGEX_match_iff (s : String) (hnl : '\n' ∉ s.data) :
    IP_REGEX_match s = true ↔
      ∃ a b c d, s.data = a ++ '.' :: (b ++ '.' :: (c ++ '.' :: d)) ∧
        goodGrp a ∧ goodGrp b ∧ goodGrp c ∧ goodGrp d := by
  constructor
  · intro h
    unfold IP_REGEX_match at h
    cases h1 : matchGroupDot s.data with
    | none => rw [h1] at h; exact Bool.noConfusion h
    | some r1 =>
      rw [h1] at h
      dsimp only at h
      cases h2 : matchGroupDot r1 with
      | none => rw [h2] at h; exact Bool.noConfusion h
      | some r2 =>
        rw [h2] at h
        dsimp only at h
        cases h3 : matchGroupDot r2 with
        | none => rw [h3] at h; exact Bool.noConfusion h
        | some r3 =>
          rw [h3] at h
          dsimp only at h
          obtain ⟨a, ga, hs⟩ := (matchGroupDot_spec s.data r1).mp h1
          obtain ⟨b, gb, hr1⟩ := (matchGroupDot_spec r1 r2).mp h2
          obtain ⟨c, gc, hr2⟩ := (matchGroupDot_spec r2 r3).mp h3
          have hnl3 : '\n' ∉ r3 := by
            intro hm
            apply hnl
            rw [hs, hr1, hr2]
            simp [List.mem_append, hm]
          have gd := (ipTail_spec r3 hnl3).mp h
          exact ⟨a, b, c, r3, by rw [hs, hr1, hr2], ga, gb, gc, gd⟩
  · rintro ⟨a, b, c, d, hs, ga, gb, gc, gd⟩
    have hnl4 : '\n' ∉ d := by
      intro hm
      apply hnl
      rw [hs]
      simp [List.mem_append, hm]
    have m1 : matchGroupDot s.data = some (b ++ '.' :: (c ++ '.' :: d)) :=
      (matchGroupDot_spec _ _).mpr ⟨a, ga, hs⟩
    have m2 : matchGroupDot (b ++ '.' :: (c ++ '.' :: d)) = some (c ++ '.' :: d) :=
      (matchGroupDot_spec _ _).mpr ⟨b, gb, rfl⟩
    have m3 : matchGroupDot (c ++ '.' :: d) = some d :=
      (matchGroupDot_spec _ _).mpr ⟨c, gc, rfl⟩
    unfold IP_REGEX_match
    rw [m1]
    dsimp only
    rw [m2]
    dsimp only
    rw [m3]
    dsimp only
    exact (ipTail_spec d hnl4).mpr gd

/-! ## Lemmas tracking characters through the URL parser -/

theorem newline_not_mem_sanitize (url : String) : '\n' ∉ sanitize url := by
  intro hmem
  unfold sanitize at hmem
  exact absurd (List.mem_filter.mp hmem).2 (by decide)

theorem dropSchemeAux_subset :
    ∀ (l r : List Char), dropSchemeAux l = some r → ∀ a ∈ r, a ∈ l := by
  intro l
  induction l with
  | nil => intro r h; exact Option.noConfusion h
  | cons c rest ih =>
    intro r h a ha
    unfold dropSchemeAux at h
    by_cases h1 : (c == ':') = true
    · rw [if_pos h1] at h
      injection h with h'
      exact List.mem_cons_of_mem c (h' ▸ ha)
    · rw [if_neg h1] at h
      by_cases h2 : isSchemeChar c = true
      · rw [if_pos h2] at h
        exact List.mem_cons_of_mem c (ih r h a ha)
      · rw [if_neg h2] at h
        exact Option.noConfusion h

theorem dropScheme_subset (l : List Char) : ∀ a ∈ dropScheme l, a ∈ l := by
  cases l with
  | nil => intro a ha; exact ha
  | cons c rest =>
    intro a ha
    simp only [dropScheme] at ha
    by_cases h1 : c.isAlpha = true
    · rw [if_pos h1] at ha
      cases haux : dropSchemeAux rest with
      | none => rw [haux] at ha; exact ha
      | some r =>
        rw [haux] at ha
        exact List.mem_cons_of_mem c (dropSchemeAux_subset rest r haux a ha)
    · rw [if_neg h1] at ha
      exact ha

theorem afterScheme_subset (url : String) : ∀ a ∈ afterScheme url, a ∈ sanitize url :=
  dropScheme_subset (sanitize url)

theorem splitParamsPath_subset (p : List Char) : ∀ a ∈ splitParamsPath p, a ∈ p := by
  intro a ha
  unfold splitParamsPath at ha
  split at ha
  · rcases List.mem_append.mp ha with h | h
    · exact List.take_subset _ _ h
    · have h1 := (List.takeWhile_sublist _).mem h
      have h2 := List.mem_reverse.mp h1
      have h3 := (List.takeWhile_sublist _).mem h2
      exact List.mem_reverse.mp h3
  · exact (List.takeWhile_sublist _).mem ha

theorem pathOf_subset (l : List Char) : ∀ a ∈ pathOf l, a ∈ l := by
  intro a ha
  unfold pathOf at ha
  have h1 := splitParamsPath_subset _ a ha
  have h2 := (List.takeWhile_sublist _).mem h1
  exact (List.takeWhile_sublist _).mem h2

theorem urlsplitModel_subsets (url : String) (nl p : List Char)
    (h : urlsplitModel url = Except.ok (nl, p)) :
    (∀ a ∈ nl, a ∈ sanitize url) ∧ (∀ a ∈ p, a ∈ sanitize url) := by
  unfold urlsplitModel at h
  split at h
  · split at h
    · exact Except.noConfusion h
    · injection h with h'
      injection h' with hnl hp
      constructor
      · intro a ha
        rw [← hnl] at ha
        have h1 := (List.takeWhile_sublist _).mem ha
        have h2 := List.drop_subset _ _ h1
        exact afterScheme_subset url a h2
      · intro a ha
        rw [← hp] at ha
        have h1 := pathOf_subset _ a ha
        have h2 := (List.dropWhile_sublist _).mem h1
        have h3 := List.drop_subset _ _ h2
        exact afterScheme_subset url a h3
  · injection h with h'
    injection h' with hnl hp
    constructor
    · intro a ha
      rw [← hnl] at ha
      exact absurd ha (List.not_mem_nil a)
    · intro a ha
      rw [← hp] at ha
      exact afterScheme_subset url a (pathOf_subset _ a ha)

theorem newline_not_in_domain (url : String) (nl p : List Char)
    (h : urlsplitModel url = Except.ok (nl, p)) : '\n' ∉ domainOf nl p := by
  intro hmem
  unfold domainOf at hmem
  have h1 := (List.takeWhile_sublist _).mem hmem
  apply newline_not_mem_sanitize url
  by_cases hn : nl = []
  · rw [if_pos hn] at h1
    exact (urlsplitModel_subsets url nl p h).2 '\n' h1
  · rw [if_neg hn] at h1
    exact (urlsplitModel_subsets url nl p h).1 '\n' h1

/-! ## Claim theorems: URL feature extraction -/

/-- C5: `has_ip` is true exactly when the extracted domain consists of
four groups of 1–3 digits separated by dots — with no check that a group
is at most 255 — and in particular the domain `"192.168.1.5"` gives
true, `"192.168.1.5000"` gives false, `"example.com"` gives false. -/
theorem C5_has_ip_iff_dotted_quad (url : String) (f : UrlFeatures) (dom : String)
    (h1 : extract_url_features url = Except.ok f) (h2 : f.domain = some dom) :
    ((f.has_ip = true) ↔
      ∃ a b c d, dom.data = a ++ '.' :: (b ++ '.' :: (c ++ '.' :: d)) ∧
        goodGrp a ∧ goodGrp b ∧ goodGrp c ∧ goodGrp d) ∧
    extractHasIp "192.168.1.5" = true ∧
    extractHasIp "192.168.1.5000" = false ∧
    extractHasIp "example.com" = false := by
  refine ⟨?_, by decide, by decide, by decide⟩
  unfold extract_url_features at h1
  split at h1
  · injection h1 with h1'
    rw [← h1'] at h2
    exact absurd h2 (by simp)
  · cases hu : urlsplitModel url with
    | error e => rw [hu] at h1; exact Except.noConfusion h1
    | ok pr =>
      obtain ⟨nl, pth⟩ := pr
      rw [hu] at h1
      dsimp only at h1
      injection h1 with h1'
      rw [← h1'] at h2
      dsimp only at h2
      injection h2 with h2'
      have hnl : '\n' ∉ dom.data := by
        rw [← h2']
        exact newline_not_in_domain url nl pth hu
      have hip : f.has_ip = IP_REGEX_match (String.mk (domainOf nl pth)) := by
        rw [← h1']
      have hdom : String.mk (domainOf nl pth) = dom := h2'
      rw [hip, hdom]
      exact IP_REGEX_match_iff dom hnl

theorem C5_witness :
    (extract_url_features "192.168.1.5" =
      Except.ok ⟨some "192.168.1.5", some "5", true, 11, 3⟩) ∧
    (((⟨some "192.168.1.5", some "5", true, 11, 3⟩ : UrlFeatures).has_ip = true) ↔
      ∃ a b c d, ("192.168.1.5" : String).data =
          a ++ '.' :: (b ++ '.' :: (c ++ '.' :: d)) ∧
        goodGrp a ∧ goodGrp b ∧ goodGrp c ∧ goodGrp d) :=
  ⟨by decide,
   (C5_has_ip_iff_dotted_quad "192.168.1.5"
     ⟨some "192.168.1.5", some "5", true, 11, 3⟩ "192.168.1.5"
     (by decide) rfl).1⟩

/-- C6 as stated is false: on the input `"http://["` the underlying URL
parser raises `ValueError("Invalid IPv6 URL")`, so `extract_url_features`
is not total over arbitrary strings. -/
theorem C6_counterexample :
    extract_url_features "http://[" = Except.error "Invalid IPv6 URL" := by
  decide

/-- C6 amended: `extract_url_features` returns the all-default
`UrlFeatures` for the empty string, and it never fails except when the
URL's authority component has unbalanced square brackets, in which case
the underlying parser raises `ValueError("Invalid IPv6 URL")` — the only
failure it can propagate. -/
theorem C6_empty_defaults_and_only_ipv6_error :
    (extract_url_features "" = Except.ok ⟨none, none, false, 0, 0⟩) ∧
    (∀ url e, extract_url_features url = Except.error e → e = "Invalid IPv6 URL") := by
  constructor
  · rfl
  · intro url e h
    unfold extract_url_features at h
    split at h
    · exact Except.noConfusion h
    · cases hu : urlsplitModel url with
      | error e' =>
        rw [hu] at h
        dsimp only at h
        injection h with h'
        unfold urlsplitModel at hu
        split at hu
        · split at hu
          · injection hu with hu'
            rw [← h', ← hu']
          · exact Except.noConfusion hu
        · exact Except.noConfusion hu
      | ok pr =>
        obtain ⟨nl, pth⟩ := pr
        rw [hu] at h
        exact Except.noConfusion h

theorem C6_witness :
    (extract_url_features "http://[" = Except.error "Invalid IPv6 URL") ∧
    ("Invalid IPv6 URL" = "Invalid IPv6 URL") :=
  ⟨by decide,
   C6_empty_defaults_and_only_ipv6_error.2 "http://[" "Invalid IPv6 URL" (by decide)⟩

end PhishGuard
